import Mathlib

/-!
Verification of the generation-session runtime
(tensorrt_llm/runtime/generation.py and examples/run.py).

Tensors are modelled as nested lists over exact numeric types (Int for token
ids, Rat for floating-point sampling parameters, whose checks in the source
are exact comparisons against default literals).  In-place mutation of a
tensor by an external kernel is modelled by the kernel returning the updated
value.  Each definition embeds the source function named in its doc comment.
-/

/- ------------------------------------------------------------------ -/
/- Execution contexts: `_Runtime.__prepare` and per-step dispatch      -/
/- ------------------------------------------------------------------ -/

/-- An execution context created by `_Runtime.__create_and_setup_context`:
identified by its creation order (`objId`, distinct per created object) and
the optimization profile passed to `set_optimization_profile_async`. -/
structure TrtContext where
  objId : Nat
  profileIdx : Nat
deriving DecidableEq, Repr

/-- The three context attributes held by `_Runtime`. -/
structure RuntimeContexts where
  ctx_context : TrtContext
  context_0 : TrtContext
  context_1 : TrtContext
deriving DecidableEq, Repr

/-- `_Runtime.__prepare` (generation.py lines 176-197): with one optimization
profile, `context_0` and `context_1` are created on profile 0 (in that
order) and `ctx_context` is assigned the very object `context_1`; with two
profiles, `ctx_context` is created on profile 0 and `context_0`, `context_1`
on profile 1; any other profile count fails the assertion. -/
def Runtime.prepare (num_optimization_profiles : Nat) : Option RuntimeContexts :=
  if num_optimization_profiles = 1 then
    let context_0 : TrtContext := ⟨0, 0⟩
    let context_1 : TrtContext := ⟨1, 0⟩
    some { ctx_context := context_1, context_0 := context_0, context_1 := context_1 }
  else if num_optimization_profiles = 2 then
    some { ctx_context := ⟨0, 0⟩, context_0 := ⟨1, 1⟩, context_1 := ⟨2, 1⟩ }
  else
    none

/-- Context selection in `GenerationSession.handle_per_step` (generation.py
lines 1650-1659 and 1690): the `step % 2` test picks `context_0` (odd) or
`context_1` (even), and the `step == 0` branch replaces the choice with
`ctx_context` before the launch. -/
def handle_per_step_context (r : RuntimeContexts) (step : Nat) : TrtContext :=
  let context := if step % 2 = 1 then r.context_0 else r.context_1
  if step = 0 then r.ctx_context else context

/- ------------------------------------------------------------------ -/
/- `_tile_beam_width`                                                  -/
/- ------------------------------------------------------------------ -/

/-- `torch.unsqueeze(t, 1)` on the list-of-slices view of a tensor: each
slice along dimension 0 becomes a singleton list. -/
def torch_unsqueeze1 {α : Type} (t : List α) : List (List α) :=
  t.map (fun x => [x])

/-- `t.tile((1, num_beams, 1, ..., 1))`: repeat the contents of dimension 1
`num_beams` times. -/
def torch_tile1 {α : Type} (num_beams : Nat) (t : List (List α)) : List (List α) :=
  t.map (fun row => (List.replicate num_beams row).flatten)

/-- `t.reshape(new_shape)` where the new shape merges dimensions 0 and 1. -/
def torch_reshape01 {α : Type} (t : List (List α)) : List α :=
  t.flatten

/-- `_tile_beam_width` (generation.py lines 127-137): unsqueeze dimension 1,
tile it `num_beams` times, then reshape so that dimension 0 becomes
`shape[0] * num_beams`. -/
def _tile_beam_width {α : Type} (tensor : List α) (num_beams : Nat) : List α :=
  torch_reshape01 (torch_tile1 num_beams (torch_unsqueeze1 tensor))

/- ------------------------------------------------------------------ -/
/- Decoder setup: `GenerationSession.__setup_decoder`                 -/
/- ------------------------------------------------------------------ -/

/-- `torch.split(input_ids, host_context_lengths, dim=1)` on the packed
(remove-padding) input: cut the flat id list into rows of the given
lengths. -/
def torch_split_by_lengths (flat : List Int) (lens : List Nat) : List (List Int) :=
  match lens with
  | [] => []
  | l :: rest => flat.take l :: torch_split_by_lengths (flat.drop l) rest

/-- `torch.nested.to_padded_tensor(..., pad_id)` on one row: right-pad the
row with `pad_id` up to the target length. -/
def pad_row (pad_id : Int) (len : Nat) (row : List Int) : List Int :=
  row ++ List.replicate (len - row.length) pad_id

/-- `t.reshape(batch_size, num_beams, ...)` splitting dimension 0 into
`length / k` groups of `k` consecutive slices (the reshape requires the
length to be divisible by `k`). -/
def list_chunks {α : Type} (k : Nat) (l : List α) : List (List α) :=
  (List.range (l.length / k)).map (fun b => (l.drop (b * k)).take k)

/-- The `output_ids` buffer built by `GenerationSession.__setup_decoder`
(generation.py lines 842-869) on the remove-padding path with
`num_beams > 1`: split the packed input by `host_context_lengths`, pad every
row to `max_context_length` with `pad_id`, tile by the beam width, reshape to
`[batch_size, num_beams, max_context_length]`, and concatenate an
`end_id`-filled block of width `max_seq_length - max_context_length` along
the last axis. -/
def setup_output_ids_beams (input_ids : List Int) (host_context_lengths : List Nat)
    (pad_id end_id : Int) (num_beams max_seq_length : Nat) : List (List (List Int)) :=
  let max_context_length := host_context_lengths.foldl max 0
  let padded_input_ids := (torch_split_by_lengths input_ids host_context_lengths).map
      (pad_row pad_id max_context_length)
  let tiled_input_ids := _tile_beam_width padded_input_ids num_beams
  let tiled := list_chunks num_beams tiled_input_ids
  tiled.map (fun beams => beams.map (fun row =>
    row ++ List.replicate (max_seq_length - max_context_length) end_id))

/- ------------------------------------------------------------------ -/
/- Penalties and the `decode` entry checks                             -/
/- ------------------------------------------------------------------ -/

/-- Scalar-penalty handling in `GenerationSession.__setup_decoder`
(generation.py lines 756-787): a scalar `repetition_penalty` equal to the
default `1.0` becomes `None`, otherwise a full `[batch_size]` vector; a
scalar `presence_penalty` equal to the default `0.0` becomes `None`,
otherwise a full vector; then the assertion
`presence_penalty == 0.0 or repetition_penalty == 1.0` must hold, else the
call fails (modelled as `none`).  The result pair is
`(presence_penalty, repetition_penalty)` as passed to the decoder. -/
def setup_decoder_penalties (batch_size : Nat) (presence_penalty repetition_penalty : ℚ) :
    Option (Option (List ℚ) × Option (List ℚ)) :=
  let rep : Option (List ℚ) :=
    if repetition_penalty = 1 then none
    else some (List.replicate batch_size repetition_penalty)
  let pres : Option (List ℚ) :=
    if presence_penalty = 0 then none
    else some (List.replicate batch_size presence_penalty)
  if presence_penalty = 0 ∨ repetition_penalty = 1 then some (pres, rep) else none

/-- The error classes of the spec's taxonomy that the `decode` entry can hit
before any generation step. -/
inductive DecodeError
  | invariant_violation
  | config_error
  | buffer_not_allocated
deriving DecidableEq, Repr

/-- Sampling-configuration fields consumed by the entry checks of
`decode` / `__setup_decoder` (scalar penalties). -/
structure SamplingConfigChecks where
  num_beams : Nat
  end_id : Option Int
  pad_id : Option Int
  presence_penalty : ℚ
  repetition_penalty : ℚ

/-- Values recorded by `GenerationSession.setup` that `decode` validates
against. -/
structure SetupState where
  batch_size : Nat
  max_context_length : Nat
  beam_width : Nat
  buffer_allocated : Bool

/-- The assertions of `__setup_decoder` reachable with scalar penalties
(generation.py lines 756-787 and 834-835), in source order: the
presence/repetition exclusivity assertion, then `end_id`/`pad_id` must not
be `None`.  All are configuration errors. -/
def setup_decoder_check (scfg : SamplingConfigChecks) : Option DecodeError :=
  if ¬ (scfg.presence_penalty = 0 ∨ scfg.repetition_penalty = 1) then
    some DecodeError.config_error
  else if scfg.end_id = none then some DecodeError.config_error
  else if scfg.pad_id = none then some DecodeError.config_error
  else none

/-- The validation prefix of `GenerationSession.decode` (generation.py lines
2158-2176), executed before any generation step: the three invariant
assertions comparing `batch_size = context_lengths.size(0)`,
`max_context_length = max(context_lengths)` and `num_beams` against the
values stored by `setup`, then `__setup_decoder`, then the
`buffer_allocated` check.  `none` means validation passed. -/
def decode_validate (st : SetupState) (context_lengths : List Nat)
    (scfg : SamplingConfigChecks) : Option DecodeError :=
  let batch_size := context_lengths.length
  let max_context_length := context_lengths.foldl max 0
  if batch_size ≠ st.batch_size then some DecodeError.invariant_violation
  else if max_context_length ≠ st.max_context_length then some DecodeError.invariant_violation
  else if scfg.num_beams ≠ st.beam_width then some DecodeError.invariant_violation
  else
    match setup_decoder_check scfg with
    | some e => some e
    | none =>
      if ¬ st.buffer_allocated then some DecodeError.buffer_not_allocated else none

/- ------------------------------------------------------------------ -/
/- `finalize_decoder` and the beam-hypotheses frame                    -/
/- ------------------------------------------------------------------ -/

/-- The eight beam-hypotheses tensors of the session, in the order they are
collected into `beam_hyps_args` (generation.py lines 1610-1616).  The
element type is abstract: the claim concerns only whether the live values
change. -/
structure BeamHypsTensors (α : Type) where
  output_ids_tgt : α
  sequence_lengths_tgt : α
  cum_log_probs : α
  normed_scores : α
  log_probs : α
  min_normed_scores : α
  num_beams : α
  is_done : α
deriving DecidableEq, Repr

/-- `GenerationSession.finalize_decoder` (generation.py lines 1601-1633),
restricted to its effect on the eight beam-hypotheses tensors.  The external
`gather_tree` kernel mutates the tensors it is handed; this is modelled by
`gather_tree` returning the final output ids together with the updated
values of the eight tensors it received.  When `use_beam_hyps` and
`in_progress` both hold, `beam_hyps_args` is a deep copy, so the kernel's
mutations land on the copy and the live tensors keep their old values;
otherwise the live tensors are handed over directly and take the mutated
values.  The result is `(final_output_ids, live beam-hyps state after the
call)`. -/
def finalize_decoder {α β : Type}
    (gather_tree : BeamHypsTensors α → β × BeamHypsTensors α)
    (use_beam_hyps in_progress : Bool)
    (live : BeamHypsTensors α) : β × BeamHypsTensors α :=
  let beam_hyps_args := live
  if use_beam_hyps && in_progress then
    ((gather_tree beam_hyps_args).1, live)
  else
    gather_tree beam_hyps_args

/- ------------------------------------------------------------------ -/
/- `setup`: attention-window validation and KV mirror buffers          -/
/- ------------------------------------------------------------------ -/

/-- The `max_attention_window_size` argument of `GenerationSession.setup`:
omitted (`None`), a Python int, or a per-layer tensor. -/
inductive MaxAttentionWindowArg
  | omitted
  | scalar (w : Nat)
  | tensor (ws : List Nat)
deriving DecidableEq, Repr

/-- The window-size validation of `GenerationSession.setup` (generation.py
lines 979-1025), returning the session's `max_attention_window_size`
together with the per-layer `host_max_attention_window_sizes` values:
omitted means `max_seq_length` everywhere; an int is clamped to
`max_seq_length` (with a warning on excess) and broadcast to every layer; a
tensor is reduced by `max`, clamped, must have length `num_layers` (else the
call fails, modelled as `none`), and is clamped per layer. -/
def setup_max_attention_window (max_seq_length num_layers : Nat) :
    MaxAttentionWindowArg → Option (Nat × List Nat)
  | MaxAttentionWindowArg.omitted =>
    some (max_seq_length, List.replicate num_layers max_seq_length)
  | MaxAttentionWindowArg.scalar w =>
    let m := min w max_seq_length
    some (m, List.replicate num_layers m)
  | MaxAttentionWindowArg.tensor ws =>
    let m := min (ws.foldl max 0) max_seq_length
    if ws.length ≠ num_layers then none
    else some (m, ws.map (fun x => min x max_seq_length))

/-- Identity of a per-layer KV-cache buffer in the session's `buffer`
dictionary: the primary `present_key_value_{i}` or the mirror
`1_present_key_value_{i}`. -/
inductive KvBuf
  | primary (layer : Nat)
  | mirror (layer : Nat)
deriving DecidableEq, Repr

/-- An engine KV tensor slot bound before a launch: `past_key_value_{i}`
(input) or `present_key_value_{i}` (output). -/
inductive EngineKvSlot
  | past (layer : Nat)
  | present (layer : Nat)
deriving DecidableEq, Repr

/-- The mirror KV buffers allocated by `GenerationSession.setup`
(generation.py lines 1083-1102): when the fused attention plugin is not
used, a `1_present_key_value_{i}` buffer is allocated for every local layer
`i` in `[first_layer, last_layer)`; with the plugin none is allocated. -/
def setup_mirror_buffers (use_gpt_attention_plugin : Bool)
    (first_layer last_layer : Nat) : List KvBuf :=
  if use_gpt_attention_plugin then []
  else (List.range' first_layer (last_layer - first_layer)).map KvBuf.mirror

/-- The KV-cache bindings emitted by
`GenerationSession._get_next_step_shape_buffer` (generation.py lines
1420-1440) in contiguous (non-paged) mode, as pairs (engine tensor slot,
session buffer bound to it): without the fused attention plugin, an odd
`step` binds the mirror as `past_key_value_{i}` and the primary as
`present_key_value_{i}`, an even `step` binds the primary as past and the
mirror as present; with the plugin the primary buffer serves both slots. -/
def next_step_kv_tensors (use_gpt_attention_plugin : Bool)
    (first_layer last_layer step : Nat) : List (EngineKvSlot × KvBuf) :=
  (List.range' first_layer (last_layer - first_layer)).flatMap (fun idx =>
    if ¬ use_gpt_attention_plugin then
      if step % 2 = 1 then
        [(EngineKvSlot.past idx, KvBuf.mirror idx),
         (EngineKvSlot.present idx, KvBuf.primary idx)]
      else
        [(EngineKvSlot.past idx, KvBuf.primary idx),
         (EngineKvSlot.present idx, KvBuf.mirror idx)]
    else
      [(EngineKvSlot.past idx, KvBuf.primary idx),
       (EngineKvSlot.present idx, KvBuf.primary idx)])

/- ------------------------------------------------------------------ -/
/- `to_word_list_format`                                               -/
/- ------------------------------------------------------------------ -/

/-- `np.cumsum` on a list of integers. -/
def np_cumsum_int (l : List Int) : List Int :=
  (l.scanl (· + ·) 0).tail

/-- The word loop of `to_word_list_format` (generation.py lines 65-72):
tokenize each word in order; a word whose tokenization is empty is skipped
(`continue`); otherwise its ids are appended to `item_flat_ids` and its id
count to `item_offsets`. -/
def word_ids_loop (encode : String → List Int) : List String → List Int × List Int
  | [] => ([], [])
  | w :: ws =>
    let ids := encode w
    let rest := word_ids_loop encode ws
    if ids.length = 0 then rest
    else (ids ++ rest.1, (ids.length : Int) :: rest.2)

/-- `to_word_list_format` (generation.py lines 41-83) for one batch element
whose single string has already been comma-split into `words` by
`csv.reader`, with the external tokenizer abstracted as `encode`: collect
ids and per-word counts (skipping empty tokenizations), take `np.cumsum` of
the counts, and right-pad row 0 with `0` and row 1 with `-1` to
`pad_to = max(1, len(item_flat_ids))`. -/
def to_word_list_format_item (encode : String → List Int) (words : List String) :
    List (List Int) :=
  let pair := word_ids_loop encode words
  let item_flat_ids := pair.1
  let offsets := np_cumsum_int pair.2
  let pad_to := max 1 item_flat_ids.length
  [item_flat_ids ++ List.replicate (pad_to - item_flat_ids.length) 0,
   offsets ++ List.replicate (pad_to - offsets.length) (-1)]

/-- `to_word_list_format` on a batch of one element: the final
`np.array([flat_ids, offsets]).transpose((1, 0, 2))` yields shape
`[1, 2, pad_to]`. -/
def to_word_list_format (encode : String → List Int) (words : List String) :
    List (List (List Int)) :=
  [to_word_list_format_item encode words]

/-- Row 1 as the claim describes it, for comparison with the source: the
cumulative sum of the id counts of EVERY word (no skipping), right-padded
with `-1` to `pad_to = max(1, total id count)`. -/
def claimed_word_list_row1 (encode : String → List Int) (words : List String) :
    List Int :=
  let counts := words.map (fun w => ((encode w).length : Int))
  let offsets := np_cumsum_int counts
  let pad_to := max 1 (words.map encode).flatten.length
  offsets ++ List.replicate (pad_to - offsets.length) (-1)

/- ------------------------------------------------------------------ -/
/- `print_output` logits path (examples/run.py lines 243-260)          -/
/- ------------------------------------------------------------------ -/

/-- `torch.squeeze(t, 1)` on a `[B, 1, ...]` tensor: keep the single
element of each dimension-1 slice. -/
def torch_squeeze1 {α : Type} [Inhabited α] (t : List (List α)) : List α :=
  t.map (fun row => row.headI)

/-- The logits branch of `print_output` (examples/run.py lines 243-260).
Inputs: `num_beams`; whether `--output_logits_npy` was given; per-sequence
`input_lengths`; `context_logits` as the list (over the batch) of per-token
logit matrices, concatenated by `torch.cat(..., axis=0)`; and
`generation_logits` (`None` when the runner did not gather logits) shaped
`[B, 1, new_tokens, V]` before `squeeze(1)`.  The guard requires generation
logits present, the output path set and `num_beams == 1`; otherwise nothing
is written (`Except.ok none`).  Inside the branch, the last-token context
logits are selected at indices `cumsum(input_lengths) - 1` (an out-of-range
index raises, modelled as `Except.error ()`), viewed as `[B, 1, V]`,
concatenated with the squeezed generation logits along axis 1 and reshaped
to `[B, num_beams, 1 + new_tokens, V]` (with `num_beams == 1` in this
branch).  `Except.ok (some arr)` means a file with contents `arr` is
written. -/
def print_output_logits (num_beams : Nat) (output_logits_npy : Bool)
    (input_lengths : List Nat)
    (context_logits : List (List (List ℚ)))
    (generation_logits : Option (List (List (List (List ℚ))))) :
    Except Unit (Option (List (List (List (List ℚ))))) :=
  match generation_logits with
  | none => Except.ok none
  | some gen4 =>
    if output_logits_npy ∧ num_beams = 1 then
      let context_cat := context_logits.flatten
      let last_token_ids := np_cumsum_int (input_lengths.map (fun n : Nat => (n : Int)))
      if last_token_ids.all (fun i => 1 ≤ i ∧ i - 1 < (context_cat.length : Int)) then
        let selected := last_token_ids.map
          (fun i => [context_cat.getD (i - 1).toNat []])
        let gen3 := torch_squeeze1 gen4
        let logits := List.zipWith (fun c g => c ++ g) selected gen3
        Except.ok (some (logits.map (fun m => [m])))
      else
        Except.error ()
    else
      Except.ok none

/- ================================================================== -/
/- Helper lemmas                                                       -/
/- ================================================================== -/

theorem flatten_replicate_singleton {α : Type} (k : Nat) (x : α) :
    (List.replicate k [x]).flatten = List.replicate k x := by
  induction k with
  | zero => rfl
  | succ n ih => simp [List.replicate_succ, ih]

theorem tile_beam_width_eq_flatMap {α : Type} (t : List α) (K : Nat) :
    _tile_beam_width t K = t.flatMap (fun x => List.replicate K x) := by
  unfold _tile_beam_width torch_reshape01 torch_tile1 torch_unsqueeze1
  induction t with
  | nil => rfl
  | cons x xs ih => simp_all [flatten_replicate_singleton]

theorem tile_beam_width_length {α : Type} (t : List α) (K : Nat) :
    (_tile_beam_width t K).length = t.length * K := by
  rw [tile_beam_width_eq_flatMap]
  induction t with
  | nil => simp
  | cons x xs ih => simp [ih, Nat.succ_mul, Nat.add_comm]

theorem tile_beam_width_getElem {α : Type} (t : List α) (K b k : Nat)
    (hb : b < t.length) (hk : k < K) :
    (_tile_beam_width t K)[b * K + k]? = t[b]? := by
  rw [tile_beam_width_eq_flatMap]
  induction t generalizing b with
  | nil => simp at hb
  | cons x xs ih =>
    cases b with
    | zero =>
      simp only [List.flatMap_cons, Nat.zero_mul, Nat.zero_add]
      rw [List.getElem?_append]
      simp [hk]
    | succ b =>
      have hb2 : b < xs.length := by simpa using hb
      simp only [List.flatMap_cons]
      rw [List.getElem?_append_right (by simp [Nat.succ_mul]; omega)]
      have hidx : (b + 1) * K + k - (List.replicate K x).length = b * K + k := by
        simp [Nat.succ_mul]; omega
      rw [hidx, ih b hb2]
      simp

theorem tile_beam_width_one {α : Type} (t : List α) :
    _tile_beam_width t 1 = t := by
  rw [tile_beam_width_eq_flatMap]
  induction t with
  | nil => rfl
  | cons x xs ih => simp [ih]

/- ================================================================== -/
/- Claim theorems                                                      -/
/- ================================================================== -/

/-- C10: for a tensor with first dimension `B` and any `num_beams = K ≥ 1`,
`_tile_beam_width` returns a tensor whose first dimension is `B * K` (the
slice type, i.e. the remaining dimensions, is unchanged), whose slice
`b * K + k` equals slice `b` of the input for all `b < B`, `k < K`, and
which for `K = 1` equals the input tensor. -/
theorem tile_beam_width_spec {α : Type} (t : List α) (K b k : Nat)
    (hb : b < t.length) (hk : k < K) :
    (_tile_beam_width t K).length = t.length * K ∧
    (_tile_beam_width t K)[b * K + k]? = t[b]? ∧
    _tile_beam_width t 1 = t :=
  ⟨tile_beam_width_length t K, tile_beam_width_getElem t K b k hb hk,
   tile_beam_width_one t⟩

/-- Witness for C10 at `t = [10, 20, 30]`, `K = 2`, `b = 1`, `k = 1`. -/
theorem tile_beam_width_spec_witness :
    (_tile_beam_width ([10, 20, 30] : List ℤ) 2).length = 3 * 2 ∧
    (_tile_beam_width ([10, 20, 30] : List ℤ) 2)[1 * 2 + 1]? = ([10, 20, 30] : List ℤ)[1]? ∧
    _tile_beam_width ([10, 20, 30] : List ℤ) 1 = [10, 20, 30] :=
  tile_beam_width_spec ([10, 20, 30] : List ℤ) 2 1 1 (by decide) (by decide)

/-- C1: the execution context used at each step follows the dispatch rule:
step 0 runs on `ctx_context`; every odd step runs on `context_0` and every
even step at least 2 runs on `context_1`; and when the engine has exactly
one optimization profile, `context_0` and `context_1` are both created on
profile 0 and `ctx_context` is the same object as `context_1`. -/
theorem context_dispatch_spec (r : RuntimeContexts) (step : Nat) :
    handle_per_step_context r 0 = r.ctx_context ∧
    (1 ≤ step → step % 2 = 1 → handle_per_step_context r step = r.context_0) ∧
    (2 ≤ step → step % 2 = 0 → handle_per_step_context r step = r.context_1) ∧
    (Runtime.prepare 1 = some r →
      r.context_0.profileIdx = 0 ∧ r.context_1.profileIdx = 0 ∧
      r.ctx_context = r.context_1) := by
  refine ⟨by simp [handle_per_step_context], ?_, ?_, ?_⟩
  · intro h1 hodd
    have hne : step ≠ 0 := by omega
    simp [handle_per_step_context, hne, hodd]
  · intro h2 heven
    have hne : step ≠ 0 := by omega
    simp [handle_per_step_context, hne, heven]
  · intro hp
    have : some (RuntimeContexts.mk ⟨1, 0⟩ ⟨0, 0⟩ ⟨1, 0⟩) = some r := by
      simpa [Runtime.prepare] using hp
    cases this
    exact ⟨rfl, rfl, rfl⟩

/-- Witness for C1 at the one-profile context assignment, steps 3 and 4. -/
theorem context_dispatch_spec_witness :
    handle_per_step_context ⟨⟨1, 0⟩, ⟨0, 0⟩, ⟨1, 0⟩⟩ 3 =
      (⟨⟨1, 0⟩, ⟨0, 0⟩, ⟨1, 0⟩⟩ : RuntimeContexts).context_0 ∧
    handle_per_step_context ⟨⟨1, 0⟩, ⟨0, 0⟩, ⟨1, 0⟩⟩ 4 =
      (⟨⟨1, 0⟩, ⟨0, 0⟩, ⟨1, 0⟩⟩ : RuntimeContexts).context_1 ∧
    (⟨⟨1, 0⟩, ⟨0, 0⟩, ⟨1, 0⟩⟩ : RuntimeContexts).ctx_context =
      (⟨⟨1, 0⟩, ⟨0, 0⟩, ⟨1, 0⟩⟩ : RuntimeContexts).context_1 :=
  ⟨(context_dispatch_spec ⟨⟨1, 0⟩, ⟨0, 0⟩, ⟨1, 0⟩⟩ 3).2.1 (by omega) (by decide),
   (context_dispatch_spec ⟨⟨1, 0⟩, ⟨0, 0⟩, ⟨1, 0⟩⟩ 4).2.2.1 (by omega) (by decide),
   ((context_dispatch_spec ⟨⟨1, 0⟩, ⟨0, 0⟩, ⟨1, 0⟩⟩ 0).2.2.2 rfl).2.2⟩

/-- C3: for every `gather_tree` kernel behaviour and every live
beam-hypotheses state, `finalize_decoder` with `use_beam_hyps` and
`in_progress = true` leaves all eight live beam-hyps tensors unchanged
(the kernel mutates deep copies) while still returning the gathered output;
with `in_progress = false` the live tensors are passed directly, so they
take the kernel's mutated values. -/
theorem finalize_decoder_frame {α β : Type}
    (gather_tree : BeamHypsTensors α → β × BeamHypsTensors α)
    (live : BeamHypsTensors α) :
    (finalize_decoder gather_tree true true live).2 = live ∧
    (finalize_decoder gather_tree true true live).1 = (gather_tree live).1 ∧
    (∀ use_beam_hyps : Bool,
      finalize_decoder gather_tree use_beam_hyps false live = gather_tree live) := by
  refine ⟨rfl, rfl, fun ub => ?_⟩
  cases ub <;> simp [finalize_decoder]

/-- C4: the session's `max_attention_window_size` after `setup` with an
integer argument `w` is `min w max_seq_length` (with the per-layer host
values broadcast from it), and calling `setup` with the integer argument
equal to `max_seq_length` produces exactly the same window state as
omitting the argument. -/
theorem setup_window_spec (max_seq_length num_layers w : Nat) :
    setup_max_attention_window max_seq_length num_layers
        (MaxAttentionWindowArg.scalar w) =
      some (min w max_seq_length,
        List.replicate num_layers (min w max_seq_length)) ∧
    setup_max_attention_window max_seq_length num_layers
        (MaxAttentionWindowArg.scalar max_seq_length) =
      setup_max_attention_window max_seq_length num_layers
        MaxAttentionWindowArg.omitted := by
  constructor
  · rfl
  · simp [setup_max_attention_window]

/-- C8: with scalar penalties, decoder setup fails exactly when
`presence_penalty` and `repetition_penalty` are simultaneously non-default
(`≠ 0.0` and `≠ 1.0` respectively); when at most one is non-default, setup
succeeds and a default-valued penalty is passed to the decoder as `None`
while a non-default one is passed as a full `[batch_size]` vector. -/
theorem penalty_exclusivity_spec (batch_size : Nat) (presence repetition : ℚ) :
    (setup_decoder_penalties batch_size presence repetition = none ↔
      (presence ≠ 0 ∧ repetition ≠ 1)) ∧
    (presence = 0 →
      setup_decoder_penalties batch_size presence repetition =
        some (none,
          if repetition = 1 then none
          else some (List.replicate batch_size repetition))) ∧
    (repetition = 1 →
      setup_decoder_penalties batch_size presence repetition =
        some ((if presence = 0 then none
          else some (List.replicate batch_size presence)), none)) := by
  unfold setup_decoder_penalties
  by_cases hp : presence = 0 <;> by_cases hr : repetition = 1 <;>
    simp [hp, hr]

/-- Witness for C8: at `presence = 0, repetition = 3` setup succeeds and
passes `(None, full vector)`; at `presence = 2, repetition = 1` it passes
`(full vector, None)`; at `presence = 2, repetition = 3` it fails. -/
theorem penalty_exclusivity_spec_witness :
    setup_decoder_penalties 2 0 3 = some (none, some (List.replicate 2 (3 : ℚ))) ∧
    setup_decoder_penalties 2 2 1 = some (some (List.replicate 2 (2 : ℚ)), none) ∧
    setup_decoder_penalties 2 2 3 = none := by
  refine ⟨?_, ?_, ?_⟩
  · have h := (penalty_exclusivity_spec 2 0 3).2.1 rfl
    rwa [if_neg (by norm_num)] at h
  · have h := (penalty_exclusivity_spec 2 2 1).2.2 rfl
    rwa [if_neg (by norm_num)] at h
  · exact (penalty_exclusivity_spec 2 2 3).1.mpr ⟨by norm_num, by norm_num⟩

theorem setup_decoder_check_not_invariant (scfg : SamplingConfigChecks) :
    setup_decoder_check scfg ≠ some DecodeError.invariant_violation := by
  unfold setup_decoder_check
  split_ifs <;> simp

/-- C6: after a successful `setup`, the validation prefix of `decode` fails
with an invariant violation — before any generation step is executed — if
and only if the input batch size differs from the setup batch size, or the
maximum of `context_lengths` differs from the setup `max_context_length`,
or `num_beams` differs from the setup beam width.  (Failures of the later
`__setup_decoder` checks are configuration errors, not invariant
violations.) -/
theorem decode_invariant_spec (st : SetupState) (context_lengths : List Nat)
    (scfg : SamplingConfigChecks) (hne : context_lengths ≠ []) :
    decode_validate st context_lengths scfg = some DecodeError.invariant_violation ↔
      (context_lengths.length ≠ st.batch_size ∨
       context_lengths.foldl max 0 ≠ st.max_context_length ∨
       scfg.num_beams ≠ st.beam_width) := by
  by_cases h1 : context_lengths.length = st.batch_size
  case neg => simp [decode_validate, h1]
  by_cases h2 : context_lengths.foldl max 0 = st.max_context_length
  case neg => simp [decode_validate, h1, h2]
  by_cases h3 : scfg.num_beams = st.beam_width
  case neg => simp [decode_validate, h1, h2, h3]
  unfold decode_validate
  rw [if_neg (by simp [h1]), if_neg (by simp [h2]), if_neg (by simp [h3])]
  cases hc : setup_decoder_check scfg with
  | some e =>
    have hni := setup_decoder_check_not_invariant scfg
    rw [hc] at hni
    simp only []
    constructor
    · intro h
      exact absurd h hni
    · intro h
      rcases h with h | h | h
      · exact absurd h1 h
      · exact absurd h2 h
      · exact absurd h3 h
  | none =>
    by_cases hb : st.buffer_allocated <;> simp [hb, h1, h2, h3]

/-- Witness for C6: a beam-width mismatch (setup beam width 2, request 1)
triggers the invariant violation; with matching values validation passes. -/
theorem decode_invariant_spec_witness :
    decode_validate ⟨2, 3, 2, true⟩ [2, 3] ⟨1, some 1, some 0, 0, 1⟩ =
      some DecodeError.invariant_violation ∧
    decode_validate ⟨2, 3, 1, true⟩ [2, 3] ⟨1, some 1, some 0, 0, 1⟩ ≠
      some DecodeError.invariant_violation :=
  ⟨(decode_invariant_spec ⟨2, 3, 2, true⟩ [2, 3] ⟨1, some 1, some 0, 0, 1⟩
      (by decide)).mpr (by decide),
   fun h => by
    have h2 := (decode_invariant_spec ⟨2, 3, 1, true⟩ [2, 3]
      ⟨1, some 1, some 0, 0, 1⟩ (by decide)).mp h
    revert h2
    decide⟩

/-- C7: in contiguous (non-paged) KV-cache mode without the fused attention
plugin, for every local layer `idx` the binding set prepared by
`_get_next_step_shape_buffer` at an even `step` binds the primary buffer
`present_key_value_{idx}` to the engine's past (input) slot and the mirror
buffer `1_present_key_value_{idx}` to the present (output) slot, and at an
odd `step` the roles swap; and `setup` allocates the mirror buffer for
every local layer exactly because the plugin is off. -/
theorem kv_pingpong_spec (first_layer last_layer idx step : Nat)
    (h1 : first_layer ≤ idx) (h2 : idx < last_layer) :
    (step % 2 = 0 →
      (EngineKvSlot.past idx, KvBuf.primary idx) ∈
        next_step_kv_tensors false first_layer last_layer step ∧
      (EngineKvSlot.present idx, KvBuf.mirror idx) ∈
        next_step_kv_tensors false first_layer last_layer step) ∧
    (step % 2 = 1 →
      (EngineKvSlot.past idx, KvBuf.mirror idx) ∈
        next_step_kv_tensors false first_layer last_layer step ∧
      (EngineKvSlot.present idx, KvBuf.primary idx) ∈
        next_step_kv_tensors false first_layer last_layer step) ∧
    KvBuf.mirror idx ∈ setup_mirror_buffers false first_layer last_layer := by
  have hmem : idx ∈ List.range' first_layer (last_layer - first_layer) := by
    rw [List.mem_range'_1]
    exact ⟨h1, by omega⟩
  refine ⟨fun he => ?_, fun ho => ?_, ?_⟩
  · have hne : ¬ step % 2 = 1 := by omega
    constructor <;>
      (refine List.mem_flatMap.mpr ⟨idx, hmem, ?_⟩; simp [hne])
  · constructor <;>
      (refine List.mem_flatMap.mpr ⟨idx, hmem, ?_⟩; simp [ho])
  · unfold setup_mirror_buffers
    simp only [Bool.false_eq_true, if_false]
    exact List.mem_map.mpr ⟨idx, hmem, rfl⟩

/-- Witness for C7 at layers `[1, 3)`, layer 2, steps 4 (even) and 5
(odd). -/
theorem kv_pingpong_spec_witness :
    ((EngineKvSlot.past 2, KvBuf.primary 2) ∈ next_step_kv_tensors false 1 3 4 ∧
     (EngineKvSlot.present 2, KvBuf.mirror 2) ∈ next_step_kv_tensors false 1 3 4) ∧
    ((EngineKvSlot.past 2, KvBuf.mirror 2) ∈ next_step_kv_tensors false 1 3 5 ∧
     (EngineKvSlot.present 2, KvBuf.primary 2) ∈ next_step_kv_tensors false 1 3 5) ∧
    KvBuf.mirror 2 ∈ setup_mirror_buffers false 1 3 :=
  ⟨(kv_pingpong_spec 1 3 2 4 (by decide) (by decide)).1 (by decide),
   (kv_pingpong_spec 1 3 2 5 (by decide) (by decide)).2.1 (by decide),
   (kv_pingpong_spec 1 3 2 5 (by decide) (by decide)).2.2⟩

/- Helper lemmas for the output_ids characterization -/

theorem init_le_foldl_max (l : List Nat) (i : Nat) : i ≤ l.foldl max i := by
  induction l generalizing i with
  | nil => exact Nat.le_refl i
  | cons x xs ih => exact Nat.le_trans (Nat.le_max_left i x) (ih (max i x))

theorem le_foldl_max (l : List Nat) (i a : Nat) (h : a ∈ l) : a ≤ l.foldl max i := by
  induction l generalizing i with
  | nil => cases h
  | cons x xs ih =>
    rcases List.mem_cons.mp h with rfl | hmem
    · exact Nat.le_trans (Nat.le_trans (Nat.le_max_right i a) (init_le_foldl_max xs _))
        (Nat.le_refl _)
    · exact ih _ hmem

theorem torch_split_length (f : List Int) (lens : List Nat) :
    (torch_split_by_lengths f lens).length = lens.length := by
  induction lens generalizing f with
  | nil => rfl
  | cons l rest ih => simp [torch_split_by_lengths, ih]

theorem torch_split_getElem (f : List Int) (lens : List Nat) (b : Nat)
    (hb : b < lens.length) :
    (torch_split_by_lengths f lens)[b]? =
      some ((f.drop ((lens.take b).sum)).take (lens.getD b 0)) := by
  induction lens generalizing f b with
  | nil => simp at hb
  | cons l rest ih =>
    cases b with
    | zero => simp [torch_split_by_lengths]
    | succ b =>
      have hb2 : b < rest.length := by simpa using hb
      simp only [torch_split_by_lengths, List.getElem?_cons_succ]
      rw [ih _ b hb2]
      simp [List.drop_drop]

theorem take_sum_add_getD_le (lens : List Nat) (b : Nat) (hb : b < lens.length) :
    (lens.take b).sum + lens.getD b 0 ≤ lens.sum := by
  induction lens generalizing b with
  | nil => simp at hb
  | cons l rest ih =>
    cases b with
    | zero => simp
    | succ b =>
      have := ih b (by simpa using hb)
      simp only [List.take_succ_cons, List.sum_cons, List.getD_cons_succ]
      omega

theorem torch_split_row_length (f : List Int) (lens : List Nat) (b : Nat)
    (hb : b < lens.length) (hsum : lens.sum ≤ f.length) :
    ((torch_split_by_lengths f lens).getD b []).length = lens.getD b 0 := by
  rw [List.getD_eq_getElem?_getD, torch_split_getElem _ _ _ hb]
  have := take_sum_add_getD_le lens b hb
  simp only [Option.getD_some, List.length_take, List.length_drop]
  omega

theorem drop_take_flatMap_replicate {α : Type} (l : List α) (K b : Nat)
    (hb : b < l.length) :
    ((l.flatMap (fun x => List.replicate K x)).drop (b * K)).take K =
      List.replicate K (l.get ⟨b, hb⟩) := by
  induction l generalizing b with
  | nil => simp at hb
  | cons x xs ih =>
    cases b with
    | zero =>
      simp only [List.flatMap_cons, Nat.zero_mul, List.drop_zero, List.get]
      rw [List.take_append_of_le_length (by simp), List.take_replicate]
      simp
    | succ b =>
      have hb2 : b < xs.length := by simpa using hb
      have harith : (b + 1) * K = (List.replicate K x).length + b * K := by
        simp [Nat.succ_mul, Nat.add_comm]
      simp only [List.flatMap_cons]
      rw [harith, List.drop_append, ih b hb2]
      rfl

theorem list_chunks_flatMap_replicate {α : Type} (l : List α) (K : Nat) (hK : 0 < K) :
    list_chunks K (l.flatMap (fun x => List.replicate K x)) =
      l.map (fun x => List.replicate K x) := by
  unfold list_chunks
  have hlen : (l.flatMap (fun x => List.replicate K x)).length = l.length * K := by
    rw [← tile_beam_width_eq_flatMap, tile_beam_width_length]
  rw [hlen, Nat.mul_div_cancel _ hK]
  apply List.ext_getElem
  · simp
  · intro n h1 h2
    have hn : n < l.length := by simpa using h2
    rw [List.getElem_map, List.getElem_range, List.getElem_map]
    rw [drop_take_flatMap_replicate l K n hn]
    rfl

theorem setup_output_ids_beams_eq (input_ids : List Int) (lens : List Nat)
    (pad_id end_id : Int) (K S : Nat) (hK : 0 < K) :
    setup_output_ids_beams input_ids lens pad_id end_id K S =
      (torch_split_by_lengths input_ids lens).map (fun row =>
        List.replicate K (pad_row pad_id (lens.foldl max 0) row ++
          List.replicate (S - lens.foldl max 0) end_id)) := by
  unfold setup_output_ids_beams
  dsimp only
  rw [tile_beam_width_eq_flatMap, list_chunks_flatMap_replicate _ _ hK]
  simp only [List.map_map]
  apply List.map_congr_left
  intro row hrow
  simp [Function.comp, List.map_replicate]

theorem pad_row_length (pad_id : Int) (L : Nat) (row : List Int)
    (h : row.length ≤ L) : (pad_row pad_id L row).length = L := by
  simp only [pad_row, List.length_append, List.length_replicate]
  omega

theorem getD_le_foldl_max (lens : List Nat) (b : Nat) (hb : b < lens.length) :
    lens.getD b 0 ≤ lens.foldl max 0 := by
  have hmem : lens.getD b 0 ∈ lens := by
    rw [List.getD_eq_getElem?_getD, List.getElem?_eq_getElem hb]
    exact List.getElem_mem hb
  exact le_foldl_max _ _ _ hmem

theorem setup_output_ids_cell (input_ids : List Int) (lens : List Nat)
    (pad_id end_id : Int) (K S b k : Nat) (hb : b < lens.length) (hk : k < K) :
    ((setup_output_ids_beams input_ids lens pad_id end_id K S).getD b []).getD k [] =
      pad_row pad_id (lens.foldl max 0)
          ((torch_split_by_lengths input_ids lens).getD b []) ++
        List.replicate (S - lens.foldl max 0) end_id := by
  rw [setup_output_ids_beams_eq _ _ _ _ _ _ (by omega)]
  have hb2 : b < (torch_split_by_lengths input_ids lens).length := by
    rw [torch_split_length]; exact hb
  rw [List.getD_eq_getElem?_getD, List.getD_eq_getElem?_getD,
    List.getElem?_map, List.getElem?_eq_getElem hb2]
  simp only [Option.map_some', Option.getD_some]
  rw [List.getElem?_replicate, if_pos hk]
  simp only [Option.getD_some]
  rw [List.getD_eq_getElem?_getD, List.getElem?_eq_getElem hb2]
  rfl

/-- C2 (amended): after decoder setup with beam width `K > 1` on the
remove-padding path, `output_ids` has shape `[B, K, S]` with
`S = max_context_length + max_new_tokens`; for every batch `b`, beam `k`
and position `t < context_lengths[b]` it holds the input token at `(b, t)`,
tiled identically across beams; positions in
`[context_lengths[b], max_context_length)` hold the PAD token of the padded
input (not the end-id, which the original claim asserted); and positions in
`[max_context_length, S)` hold the end-id. -/
theorem output_ids_after_setup (input_ids : List Int) (lens : List Nat)
    (pad_id end_id : Int) (K max_new_tokens : Nat)
    (hK : 1 < K) (hlen : input_ids.length = lens.sum) :
    (setup_output_ids_beams input_ids lens pad_id end_id K
        (lens.foldl max 0 + max_new_tokens)).length = lens.length ∧
    (∀ b, b < lens.length →
      ((setup_output_ids_beams input_ids lens pad_id end_id K
          (lens.foldl max 0 + max_new_tokens)).getD b []).length = K) ∧
    (∀ b k, b < lens.length → k < K →
      (((setup_output_ids_beams input_ids lens pad_id end_id K
          (lens.foldl max 0 + max_new_tokens)).getD b []).getD k []).length =
        lens.foldl max 0 + max_new_tokens) ∧
    (∀ b k t, b < lens.length → k < K → t < lens.getD b 0 →
      ((((setup_output_ids_beams input_ids lens pad_id end_id K
          (lens.foldl max 0 + max_new_tokens)).getD b []).getD k []).getD t 0 =
        ((torch_split_by_lengths input_ids lens).getD b []).getD t 0)) ∧
    (∀ b k t, b < lens.length → k < K → lens.getD b 0 ≤ t → t < lens.foldl max 0 →
      (((setup_output_ids_beams input_ids lens pad_id end_id K
          (lens.foldl max 0 + max_new_tokens)).getD b []).getD k []).getD t 0 = pad_id) ∧
    (∀ b k t, b < lens.length → k < K → lens.foldl max 0 ≤ t →
      t < lens.foldl max 0 + max_new_tokens →
      (((setup_output_ids_beams input_ids lens pad_id end_id K
          (lens.foldl max 0 + max_new_tokens)).getD b []).getD k []).getD t 0 = end_id) := by
  have hsum : lens.sum ≤ input_ids.length := by omega
  refine ⟨?_, ?_, ?_, ?_, ?_, ?_⟩
  · rw [setup_output_ids_beams_eq _ _ _ _ _ _ (by omega)]
    simp [torch_split_length]
  · intro b hb
    have hb2 : b < (torch_split_by_lengths input_ids lens).length := by
      rw [torch_split_length]; exact hb
    rw [setup_output_ids_beams_eq _ _ _ _ _ _ (by omega)]
    rw [List.getD_eq_getElem?_getD, List.getElem?_map, List.getElem?_eq_getElem hb2]
    simp
  · intro b k hb hk
    rw [setup_output_ids_cell _ _ _ _ _ _ _ _ hb hk]
    have hrow : ((torch_split_by_lengths input_ids lens).getD b []).length =
        lens.getD b 0 := torch_split_row_length _ _ _ hb hsum
    have hle : lens.getD b 0 ≤ lens.foldl max 0 := getD_le_foldl_max lens b hb
    rw [List.length_append, pad_row_length _ _ _ (by omega), List.length_replicate]
    omega
  · intro b k t hb hk ht
    rw [setup_output_ids_cell _ _ _ _ _ _ _ _ hb hk]
    have hrow : ((torch_split_by_lengths input_ids lens).getD b []).length =
        lens.getD b 0 := torch_split_row_length _ _ _ hb hsum
    unfold pad_row
    rw [List.getD_eq_getElem?_getD, List.append_assoc, List.getElem?_append,
      if_pos (by omega), List.getD_eq_getElem?_getD, List.getD_eq_getElem?_getD]
  · intro b k t hb hk ht1 ht2
    rw [setup_output_ids_cell _ _ _ _ _ _ _ _ hb hk]
    have hrow : ((torch_split_by_lengths input_ids lens).getD b []).length =
        lens.getD b 0 := torch_split_row_length _ _ _ hb hsum
    unfold pad_row
    rw [List.getD_eq_getElem?_getD, List.append_assoc, List.getElem?_append,
      if_neg (by omega), List.getElem?_append,
      if_pos (by simp only [List.length_replicate]; omega),
      List.getElem?_replicate, if_pos (by omega)]
    rfl
  · intro b k t hb hk ht1 ht2
    rw [setup_output_ids_cell _ _ _ _ _ _ _ _ hb hk]
    have hrow : ((torch_split_by_lengths input_ids lens).getD b []).length =
        lens.getD b 0 := torch_split_row_length _ _ _ hb hsum
    have hle : lens.getD b 0 ≤ lens.foldl max 0 := getD_le_foldl_max lens b hb
    have hplen : (pad_row pad_id (lens.foldl max 0)
        ((torch_split_by_lengths input_ids lens).getD b [])).length =
        lens.foldl max 0 := pad_row_length _ _ _ (by omega)
    rw [List.getD_eq_getElem?_getD, List.getElem?_append,
      if_neg (by omega), List.getElem?_replicate, if_pos (by omega)]
    rfl

/-- Witness for C2 (amended) at input `[5,6,7]`, lengths `[1,2]`,
`pad_id = 0`, `end_id = 9`, `K = 2`, `max_new_tokens = 3`. -/
theorem output_ids_after_setup_witness :
    (setup_output_ids_beams [5, 6, 7] [1, 2] 0 9 2 5).length = 2 ∧
    ((((setup_output_ids_beams [5, 6, 7] [1, 2] 0 9 2 5).getD 1 []).getD 0 []).getD 1 0 = 7) ∧
    ((((setup_output_ids_beams [5, 6, 7] [1, 2] 0 9 2 5).getD 0 []).getD 1 []).getD 1 0 = 0) ∧
    ((((setup_output_ids_beams [5, 6, 7] [1, 2] 0 9 2 5).getD 0 []).getD 0 []).getD 3 0 = 9) := by
  have h := output_ids_after_setup [5, 6, 7] [1, 2] 0 9 2 3 (by omega) (by decide)
  refine ⟨h.1, ?_, ?_, ?_⟩
  · exact (h.2.2.2.1 1 0 1 (by decide) (by decide) (by decide)).trans (by decide)
  · exact h.2.2.2.2.1 0 1 1 (by decide) (by decide) (by decide) (by decide)
  · exact h.2.2.2.2.2 0 0 3 (by decide) (by decide) (by decide) (by decide)

/-- C2 counterexample to the claim as stated: with remove-padding input
`[5,6,7]`, context lengths `[1,2]`, `pad_id = 0`, `end_id = 9`, beam width
2 and `max_seq_length = 5`, position `t = 1` of batch 0 lies outside the
context prefix (`context_lengths[0] = 1`), yet `output_ids[0][0][1]` holds
the pad token `0`, not the end-id `9`: the buffer is not initialized to
end-id at every position outside the per-sequence input prefix. -/
theorem output_ids_after_setup_counterexample :
    (([1, 2] : List Nat).getD 0 0 ≤ 1) ∧
    ((((setup_output_ids_beams [5, 6, 7] [1, 2] 0 9 2 5).getD 0 []).getD 0 []).getD 1 0 = 0) ∧
    (0 : Int) ≠ 9 := by decide

theorem np_cumsum_int_length (l : List Int) : (np_cumsum_int l).length = l.length := by
  simp [np_cumsum_int, List.length_tail, List.length_scanl]

theorem word_ids_loop_eq (encode : String → List Int) (ws : List String) :
    word_ids_loop encode ws =
      ((ws.map encode).flatten,
       (ws.filter (fun w => !(encode w).isEmpty)).map
         (fun w => ((encode w).length : Int))) := by
  induction ws with
  | nil => rfl
  | cons w ws ih =>
    simp only [word_ids_loop, ih]
    by_cases h : (encode w).length = 0
    · have he : encode w = [] := List.eq_nil_of_length_eq_zero h
      simp [h, he, List.filter_cons]
    · have he : (encode w).isEmpty = false := by
        cases hev : encode w with
        | nil => simp [hev] at h
        | cons a l => rfl
      simp [h, List.filter_cons, he]

/-- C5 (amended): for every comma-split word list of one batch element and
every tokenizer, `to_word_list_format` returns a `[1, 2, P]` array where
row 0 is the concatenation of the tokenizer ids of the words right-padded
with `0` to `P = max(1, total id count)`, and row 1 is the cumulative sum of
the id counts of the words WHOSE TOKENIZATION IS NONEMPTY (a word encoding
to zero ids is skipped by the loop), right-padded with `-1` to `P`. -/
theorem to_word_list_format_spec (encode : String → List Int) (words : List String)
    (hw : words ≠ []) :
    to_word_list_format encode words =
      [[(words.map encode).flatten ++
          List.replicate (max 1 ((words.map encode).flatten).length -
            ((words.map encode).flatten).length) 0,
        np_cumsum_int ((words.filter (fun w => !(encode w).isEmpty)).map
            (fun w => ((encode w).length : Int))) ++
          List.replicate (max 1 ((words.map encode).flatten).length -
            ((words.filter (fun w => !(encode w).isEmpty)).map
              (fun w => ((encode w).length : Int))).length) (-1)]] := by
  unfold to_word_list_format to_word_list_format_item
  rw [word_ids_loop_eq]
  simp only [np_cumsum_int_length]

/-- Witness for C5 (amended) on the word list `["ab", "c"]` with a tokenizer
sending "ab" to two ids and "c" to one. -/
theorem to_word_list_format_spec_witness :
    to_word_list_format (fun w => if w = "ab" then [7, 8] else [9]) ["ab", "c"] =
      [[[7, 8, 9], [2, 3, -1]]] := by
  rw [to_word_list_format_spec (fun w => if w = "ab" then [7, 8] else [9])
    ["ab", "c"] (by decide)]
  decide

/-- C5 counterexample to the claim as stated: comma-splitting `"a,,b"`
yields the word list `["a", "", "b"]`; with a tokenizer sending "a" to
`[7,8]`, "b" to `[9]` and the empty word to no ids, the code returns row 1
`[2, 3, -1]` (the zero-id word is skipped), while the cumulative sum of the
per-word id counts described by the claim is `[2, 2, 3]`. -/
theorem to_word_list_format_counterexample :
    to_word_list_format
        (fun w => if w = "a" then [7, 8] else if w = "b" then [9] else [])
        ["a", "", "b"] = [[[7, 8, 9], [2, 3, -1]]] ∧
    claimed_word_list_row1
        (fun w => if w = "a" then [7, 8] else if w = "b" then [9] else [])
        ["a", "", "b"] = [2, 2, 3] ∧
    ([2, 3, -1] : List Int) ≠ [2, 2, 3] := by decide

theorem scanl_add_shift (a : Int) (l : List Int) :
    List.scanl (· + ·) a l = (List.scanl (· + ·) 0 l).map (fun y => a + y) := by
  induction l generalizing a with
  | nil => simp [List.scanl]
  | cons x xs ih =>
    rw [List.scanl_cons, List.scanl_cons]
    simp only [List.map_append, List.map_cons, List.map_nil]
    congr 1
    · simp
    · rw [ih (a + x), ih (0 + x), List.map_map]
      apply List.map_congr_left
      intro y hy
      simp only [Function.comp]
      ring

theorem np_cumsum_int_cons (x : Int) (xs : List Int) :
    np_cumsum_int (x :: xs) =
      x :: (np_cumsum_int xs).map (fun y => x + y) := by
  unfold np_cumsum_int
  rw [List.scanl_cons]
  cases xs with
  | nil => simp [List.scanl]
  | cons y ys =>
    rw [List.scanl_cons]
    simp only [List.singleton_append, List.tail_cons, zero_add]
    rw [List.scanl_cons, scanl_add_shift (x + y) ys, scanl_add_shift (0 + y) ys]
    simp only [zero_add, List.singleton_append, List.tail_cons, List.map_cons,
      List.map_map]
    congr 1
    apply List.map_congr_left
    intro z hz
    simp only [Function.comp]
    ring

theorem context_last_token_select (lens : List Nat) (blocks : List (List (List ℚ)))
    (hB : blocks.length = lens.length)
    (hrows : ∀ b, b < lens.length → (blocks.getD b []).length = lens.getD b 0)
    (hpos : ∀ b, b < lens.length → 0 < lens.getD b 0) :
    ((np_cumsum_int (lens.map (fun n : Nat => (n : Int)))).all
      (fun i => decide (1 ≤ i ∧ i - 1 < (blocks.flatten.length : Int)))) = true ∧
    (np_cumsum_int (lens.map (fun n : Nat => (n : Int)))).map
        (fun i => [blocks.flatten.getD (i - 1).toNat []]) =
      blocks.map (fun blk => [blk.getD (blk.length - 1) []]) := by
  induction lens generalizing blocks with
  | nil =>
    have hb0 : blocks = [] := List.eq_nil_of_length_eq_zero hB
    subst hb0
    constructor <;> rfl
  | cons L ls ih =>
    cases blocks with
    | nil => simp at hB
    | cons blk rest =>
      have hB2 : rest.length = ls.length := by simpa using hB
      have hrows0 : blk.length = L := by
        have := hrows 0 (by simp)
        simpa using this
      have hpos0 : 0 < L := by
        have := hpos 0 (by simp)
        simpa using this
      have hrows2 : ∀ b, b < ls.length → (rest.getD b []).length = ls.getD b 0 := by
        intro b hb
        have := hrows (b + 1) (by simpa using Nat.succ_lt_succ hb)
        simpa using this
      have hpos2 : ∀ b, b < ls.length → 0 < ls.getD b 0 := by
        intro b hb
        have := hpos (b + 1) (by simpa using Nat.succ_lt_succ hb)
        simpa using this
      obtain ⟨ihall, ihmap⟩ := ih rest hB2 hrows2 hpos2
      have hallmem := List.all_eq_true.mp ihall
      simp only [List.map_cons, np_cumsum_int_cons, List.flatten_cons]
      constructor
      · rw [List.all_cons, Bool.and_eq_true]
        constructor
        · rw [decide_eq_true_eq]
          constructor
          · omega
          · simp only [List.length_append]
            omega
        · rw [List.all_map, List.all_eq_true]
          intro y hy
          have hprop := hallmem y hy
          rw [decide_eq_true_eq] at hprop
          simp only [Function.comp, decide_eq_true_eq, List.length_append]
          constructor
          · omega
          · omega
      · congr 1
        · have hidx : (((L : Int)) - 1).toNat = L - 1 := by omega
          rw [hidx, hrows0, List.getD_eq_getElem?_getD, List.getElem?_append,
            if_pos (by omega), ← List.getD_eq_getElem?_getD]
        · rw [List.map_map, ← ihmap]
          apply List.map_congr_left
          intro y hy
          have hprop := hallmem y hy
          rw [decide_eq_true_eq] at hprop
          simp only [Function.comp]
          congr 1
          have hidx : (((L : Int)) + y - 1).toNat = blk.length + (y - 1).toNat := by
            omega
          rw [hidx, List.getD_eq_getElem?_getD, List.getElem?_append,
            if_neg (by omega), ← List.getD_eq_getElem?_getD]
          congr 1
          omega

/-- C9 (amended): when `--output_logits_npy` is set, generation logits are
present and `num_beams == 1`, `print_output` writes a logits array equal to,
per batch element, the single last-token context-logits row concatenated
with that element's generation logits — i.e. shape
`[B, 1, 1 + new_tokens, V]` (one retained context-logit row, not the full
context length); when `num_beams ≠ 1` no logits file is written and no
error is raised (the branch is silently skipped, not rejected). -/
theorem print_output_logits_spec (input_lengths : List Nat)
    (context_logits : List (List (List ℚ))) (gen4 : List (List (List (List ℚ))))
    (hB : context_logits.length = input_lengths.length)
    (hrows : ∀ b, b < input_lengths.length →
      (context_logits.getD b []).length = input_lengths.getD b 0)
    (hpos : ∀ b, b < input_lengths.length → 0 < input_lengths.getD b 0) :
    print_output_logits 1 true input_lengths context_logits (some gen4) =
      Except.ok (some (List.zipWith
        (fun blk g => [[blk.getD (blk.length - 1) []] ++ g.headI])
        context_logits gen4)) ∧
    (∀ num_beams : Nat, num_beams ≠ 1 →
      print_output_logits num_beams true input_lengths context_logits (some gen4) =
        Except.ok none) := by
  obtain ⟨hall, hmap⟩ := context_last_token_select input_lengths context_logits hB hrows hpos
  constructor
  · unfold print_output_logits
    dsimp only
    rw [if_pos (by exact ⟨rfl, rfl⟩), if_pos hall, hmap]
    unfold torch_squeeze1
    rw [List.map_zipWith, List.zipWith_map_left, List.zipWith_map_right]
  · intro num_beams hnb
    unfold print_output_logits
    dsimp only
    rw [if_neg (by
      intro hcon
      exact hnb hcon.2)]

/-- Witness for C9 (amended) at one batch element with context length 2
and two generation steps. -/
theorem print_output_logits_spec_witness :
    print_output_logits 1 true [2] [[[1, 2], [3, 4]]] (some [[[[5, 6], [7, 8]]]]) =
      Except.ok (some [[[[3, 4], [5, 6], [7, 8]]]]) ∧
    print_output_logits 3 true [2] [[[1, 2], [3, 4]]] (some [[[[5, 6], [7, 8]]]]) =
      Except.ok none := by
  have h := print_output_logits_spec [2] [[[1, 2], [3, 4]]] [[[[5, 6], [7, 8]]]]
    (by decide)
    (by
      intro b hb
      simp only [List.length_cons, List.length_nil] at hb
      have hb0 : b = 0 := by omega
      subst hb0
      decide)
    (by
      intro b hb
      simp only [List.length_cons, List.length_nil] at hb
      have hb0 : b = 0 := by omega
      subst hb0
      decide)
  exact ⟨h.1.trans (by rfl), h.2 3 (by decide)⟩

/-- C9 counterexample to the claim as stated: with `num_beams = 2` and
`--output_logits_npy` set, `print_output` does NOT reject the request — the
call completes returning no error and writes no logits file (the guard
`num_beams == 1` silently skips the branch). -/
theorem print_output_logits_counterexample :
    print_output_logits 2 true [1] [[[1, 2]]] (some [[[[3, 4]]]]) = Except.ok none ∧
    print_output_logits 2 true [1] [[[1, 2]]] (some [[[[3, 4]]]]) ≠ Except.error () := by
  refine ⟨rfl, fun h => ?_⟩
  rw [show print_output_logits 2 true [1] [[[1, 2]]] (some [[[[3, 4]]]]) =
    Except.ok none from rfl] at h
  exact Except.noConfusion h
